import Mathlib

/-
Verification of the godog step-execution engine (src/suite.go) against its
natural-language specification.

The embedding follows src/suite.go line by line:
  * `Arg`, `Arg.Int` model the typed argument accessors (lines 12-39); the Go
    standard library call strconv.ParseInt is modelled by `parseInt10`
    (the repository only relies on parse success or failure).  On parse
    failure the accessor panics with a STRING value built by fmt.Sprintf,
    modelled as `PanicVal.strVal`; `Arg.Float` behaves identically and is not
    separately embedded.
  * a handler invocation either returns an `Option GoError` (nil or non-nil
    Go error) or panics with a `PanicVal` (`HandlerRes`).
  * a registered definition pairs a handler with a regular expression; the
    regexp (Go standard library) is modelled by its FindStringSubmatch
    behaviour: a function from the step text to the submatch list, where the
    empty list stands for the nil (no match) result.
  * the formatter (interface Formatter, not part of src/) is modelled by the
    list of events emitted to it.  suite.go calls Node, Passed, Failed,
    Pending and Skipped.  `Event.undefined` is Modelled from the spec: the
    Outcome vocabulary of the specification also names an Undefined outcome, which
    suite.go never emits; having the constructor lets statements about the
    Undefined outcome be expressed and settled.
  * `runStep`, `runStepsAux`/`runSteps`, `skipSteps`, `scenarioPart`/
    `runScenarios`, `runFeature` are the functions of the same names in
    suite.go (lines 130-201); the body of the scenario loop of runFeature is
    split into the helper `scenarioPart` purely to obtain structural
    recursion.  Each function additionally returns the list of steps whose
    handler was actually invoked (the invocation log), so that claims of the
    form "the handler is never invoked" are expressible, and a result tag:
    a recovered panic whose value is not a Go error re-panics inside the
    deferred function (the failed type assertion err = e.(error)), which
    crashes the whole run; this is the `crash` tag, which aborts every
    enclosing loop.
-/

abbrev GoError := String

/-- A value carried by a Go panic: either a Go error value or a plain string
(as produced by fmt.Sprintf in Arg.Float and Arg.Int). -/
inductive PanicVal where
  | errVal (e : GoError)
  | strVal (s : String)
deriving DecidableEq

/-- Result of invoking a step handler: a normal return carrying the Go error
value (none = nil), or a panic. -/
inductive HandlerRes where
  | ret (e : Option GoError)
  | panicked (v : PanicVal)
deriving DecidableEq

/-- Arg is an argument for StepHandler parsed from the regexp submatch
(suite.go line 14). -/
structure Arg where
  val : String
deriving DecidableEq

/-- strconv.ParseInt of the Go standard library with base 10, modelled on
the character list of the string: an optional sign followed by at least one
decimal digit (the int64 range check of bitSize 0 is not modelled; the
repository only relies on parse success or failure). -/
def parseInt10 (s : String) : Option Int :=
  match s.data with
  | '-' :: cs =>
    if !cs.isEmpty && cs.all Char.isDigit
    then some (-((cs.foldl (fun n c => n * 10 + (c.toNat - 48)) 0 : Nat) : Int))
    else none
  | '+' :: cs =>
    if !cs.isEmpty && cs.all Char.isDigit
    then some (((cs.foldl (fun n c => n * 10 + (c.toNat - 48)) 0 : Nat) : Int))
    else none
  | cs =>
    if !cs.isEmpty && cs.all Char.isDigit
    then some (((cs.foldl (fun n c => n * 10 + (c.toNat - 48)) 0 : Nat) : Int))
    else none

/-- Arg.Int (suite.go lines 28-34): converts the argument to an integer or
panics (with a string message) if unable to convert it; the Except value
models normal return versus panic of the accessor, and the panic value is a
string (fmt.Sprintf), not a Go error. -/
def Arg.Int (a : Arg) : Except PanicVal Int :=
  match parseInt10 a.val with
  | some v => Except.ok v
  | none => Except.error (PanicVal.strVal ("cannot convert " ++ a.val ++ " to int64: invalid syntax"))

/-- errPending (suite.go line 67). -/
def errPending : GoError := "pending step"

/-- stepMatchHandler (suite.go lines 69-72): a registered step definition.
The regexp field is modelled by its FindStringSubmatch behaviour on a given
text: the empty list models the nil result (no match); otherwise the head is
the full match and the tail the capture groups. -/
structure stepMatchHandler where
  handler : List Arg → HandlerRes
  expr : String → List String

/-- suite.Step registration (suite.go lines 103-108): appends a definition,
so the list order is exactly registration order. -/
def suiteStep (steps : List stepMatchHandler) (expr : String → List String)
    (h : List Arg → HandlerRes) : List stepMatchHandler :=
  steps ++ [⟨h, expr⟩]

namespace gherkin

/-- gherkin.Step: only the Text field is consulted by suite.go. -/
structure Step where
  text : String
deriving DecidableEq

/-- gherkin.Scenario: a name and its ordered steps. -/
structure Scenario where
  name : String
  steps : List Step
deriving DecidableEq

/-- gherkin.Background: the shared steps. -/
structure Background where
  steps : List Step
deriving DecidableEq

/-- gherkin.Feature: an optional Background and the ordered Scenarios. -/
structure Feature where
  background : Option Background
  scenarios : List Scenario
deriving DecidableEq

end gherkin

/-- Identity of a structural node passed to fmt.Node. -/
inductive Node where
  | feature
  | background
  | scenario (name : String)
deriving DecidableEq

/-- One event emitted to the Formatter.  suite.go emits node, passed, failed,
pending and skipped.  `undefined` is Modelled from the spec: the
specification names an Undefined outcome in the Formatter protocol, and the
Formatter interface itself is not part of src/; suite.go never emits it. -/
inductive Event where
  | node (n : Node)
  | passed (st : gherkin.Step)
  | failed (st : gherkin.Step) (e : GoError)
  | pending (st : gherkin.Step)
  | skipped (st : gherkin.Step)
  | undefined (st : gherkin.Step)
deriving DecidableEq

/-- Events that correspond to the failure-triggering outcomes named by the
spec: Failed, Pending and Undefined. -/
def isFailing : Event → Bool
  | Event.failed _ _ => true
  | Event.pending _ => true
  | Event.undefined _ => true
  | _ => false

/-- Result of runStep: the returned Go error (none = nil), or a crash of the
whole run (a recovered panic value that is not an error re-panics in the
deferred function). -/
inductive StepRes where
  | ret (e : Option GoError)
  | crash
deriving DecidableEq

/-- Result of runSteps: the returned failed flag, or a crash. -/
inductive StepsRes where
  | done (failed : Bool)
  | crash
deriving DecidableEq

/-- Result of runFeature / runScenarios. -/
inductive FeatRes where
  | done
  | crash
deriving DecidableEq

/-- The matching loop of runStep (suite.go lines 131-141): scan the
registered definitions in order, stop at the first whose expression matches
(FindStringSubmatch non-nil), binding the arguments to the capture groups
m[1:] in order. -/
def findMatch (steps : List stepMatchHandler) (text : String) :
    Option (stepMatchHandler × List Arg) :=
  match steps with
  | [] => none
  | h :: rest =>
    if (h.expr text).length > 0 then some (h, ((h.expr text).drop 1).map Arg.mk)
    else findMatch rest text

/-- runStep (suite.go lines 130-160).  Returns the emitted formatter events,
the invocation log (the steps whose handler was invoked) and the result.
With no match: fmt.Pending and return errPending.  Otherwise the handler is
invoked inside the deferred-recover block: a nil return emits Passed, a
non-nil error emits Failed, a panic with an error value is recovered into
err and emits Failed, and a panic with a non-error value makes the type
assertion e.(error) itself panic, crashing the run before any event for this
step is emitted. -/
def runStep (steps : List stepMatchHandler) (st : gherkin.Step) :
    List Event × List gherkin.Step × StepRes :=
  match findMatch steps st.text with
  | none => ([Event.pending st], [], StepRes.ret (some errPending))
  | some (m, args) =>
    match m.handler args with
    | HandlerRes.ret none => ([Event.passed st], [st], StepRes.ret none)
    | HandlerRes.ret (some e) => ([Event.failed st e], [st], StepRes.ret (some e))
    | HandlerRes.panicked (PanicVal.errVal e) => ([Event.failed st e], [st], StepRes.ret (some e))
    | HandlerRes.panicked (PanicVal.strVal _) => ([], [st], StepRes.crash)

/-- The loop of runSteps (suite.go lines 162-174) with the failed flag made
explicit: a step reached with the flag set is reported Skipped and its
handler is not invoked; otherwise the step runs and a non-nil error sets the
flag for the remaining steps. -/
def runStepsAux (reg : List stepMatchHandler) (steps : List gherkin.Step)
    (failed : Bool) : List Event × List gherkin.Step × StepsRes :=
  match steps with
  | [] => ([], [], StepsRes.done failed)
  | st :: rest =>
    if failed then
      let t := runStepsAux reg rest true
      (Event.skipped st :: t.1, t.2.1, t.2.2)
    else
      match runStep reg st with
      | (evs, invs, StepRes.crash) => (evs, invs, StepsRes.crash)
      | (evs, invs, StepRes.ret e) =>
        let t := runStepsAux reg rest e.isSome
        (evs ++ t.1, invs ++ t.2.1, t.2.2)

/-- runSteps (suite.go lines 162-174): the failed flag starts false. -/
def runSteps (reg : List stepMatchHandler) (steps : List gherkin.Step) :
    List Event × List gherkin.Step × StepsRes :=
  runStepsAux reg steps false

/-- skipSteps (suite.go lines 176-180). -/
def skipSteps (steps : List gherkin.Step) : List Event :=
  steps.map Event.skipped

/-- The body of the scenario loop of runFeature (suite.go lines 193-199):
fmt.Node(scenario), then either skip all its steps (flag set) or run them;
the Boolean result of running the scenario steps is DISCARDED by the source
(line 198), so the continuation `tail` is evaluated with the incoming flag. -/
def scenarioPart (reg : List stepMatchHandler) (sc : gherkin.Scenario)
    (failed : Bool) (tail : List Event × List gherkin.Step × FeatRes) :
    List Event × List gherkin.Step × FeatRes :=
  if failed then
    (Event.node (Node.scenario sc.name) :: (skipSteps sc.steps ++ tail.1), tail.2.1, tail.2.2)
  else
    match runSteps reg sc.steps with
    | (evs, invs, StepsRes.crash) => (Event.node (Node.scenario sc.name) :: evs, invs, FeatRes.crash)
    | (evs, invs, StepsRes.done _) =>
      (Event.node (Node.scenario sc.name) :: (evs ++ tail.1), invs ++ tail.2.1, tail.2.2)

/-- The scenario loop of runFeature (suite.go lines 184-200) with the
feature-level failed flag made explicit.  Before each scenario, if there is
a Background and the flag is not set, fmt.Node(background) is emitted and
the Background steps are run, the flag taking their result; the flag is
assigned nowhere else. -/
def runScenarios (reg : List stepMatchHandler) (bg : Option gherkin.Background)
    (scs : List gherkin.Scenario) (failed : Bool) :
    List Event × List gherkin.Step × FeatRes :=
  match scs with
  | [] => ([], [], FeatRes.done)
  | sc :: rest =>
    match bg, failed with
    | some b, false =>
      match runSteps reg b.steps with
      | (evsB, invB, StepsRes.crash) => (Event.node Node.background :: evsB, invB, FeatRes.crash)
      | (evsB, invB, StepsRes.done f1) =>
        let t := scenarioPart reg sc f1 (runScenarios reg (some b) rest f1)
        (Event.node Node.background :: (evsB ++ t.1), invB ++ t.2.1, t.2.2)
    | _, _ => scenarioPart reg sc failed (runScenarios reg bg rest failed)

/-- runFeature (suite.go lines 182-201): fmt.Node(feature), then the
scenario loop starting with the failed flag false. -/
def runFeature (reg : List stepMatchHandler) (f : gherkin.Feature) :
    List Event × List gherkin.Step × FeatRes :=
  let t := runScenarios reg f.background f.scenarios false
  (Event.node Node.feature :: t.1, t.2.1, t.2.2)

/-- The five Outcome kinds of the spec. -/
inductive OutcomeKind where
  | passed
  | failed
  | pending
  | undefined
  | skipped
deriving DecidableEq

/-- The Outcome kind reported by a formatter event (none for structural
node events). -/
def eventOutcome : Event → Option OutcomeKind
  | Event.node _ => none
  | Event.passed _ => some OutcomeKind.passed
  | Event.failed _ _ => some OutcomeKind.failed
  | Event.pending _ => some OutcomeKind.pending
  | Event.skipped _ => some OutcomeKind.skipped
  | Event.undefined _ => some OutcomeKind.undefined

/-- Number of events of a given Outcome kind in an event stream. -/
def countOutcome (k : OutcomeKind) (evs : List Event) : Nat :=
  (evs.filter (fun ev => eventOutcome ev = some k)).length

/-- Outcome total of one Feature run by the engine. -/
def countFeature (reg : List stepMatchHandler) (f : gherkin.Feature)
    (k : OutcomeKind) : Nat :=
  countOutcome k (runFeature reg f).1

/-- Modelled from the spec: the sequential (worker count 1) run processes the
Feature list in order on the Execution Engine and aggregates the per-Feature
Outcome counts; the concurrent runner itself is not part of src/ (only its
tests are). -/
def sequentialTotal (reg : List stepMatchHandler) (fs : List gherkin.Feature)
    (k : OutcomeKind) : Nat :=
  (fs.map (fun f => countFeature reg f k)).sum

/-- Modelled from the spec: with worker count C greater than 1 the Features
are partitioned across C workers, each an independent Execution Engine over
the shared read-only registry writing to a private buffer; after all workers
complete the buffers are merged and counted.  The schedule is any partition
of the Feature list (each Feature stays whole on one worker). -/
def concurrentTotal (reg : List stepMatchHandler)
    (assign : List (List gherkin.Feature)) (k : OutcomeKind) : Nat :=
  (assign.map (fun ws => sequentialTotal reg ws k)).sum

/-- Aggregate counts of a finished run. -/
structure Counts where
  passed : Nat
  failed : Nat
  pending : Nat
  undefined : Nat
  skipped : Nat
deriving DecidableEq

/-- Modelled from the spec: the strict-mode success decision of the runner
(runner.run is not part of src/, only its tests are): success is
failed == 0 and, in strict mode, additionally pending == 0 and
undefined == 0. -/
def runSuccess (c : Counts) (strict : Bool) : Bool :=
  c.failed == 0 && (if strict then c.pending == 0 && c.undefined == 0 else true)

/-- A registered definition matching exactly the text "one" whose handler
returns nil. -/
def mOk : stepMatchHandler :=
  ⟨fun _ => HandlerRes.ret none,
   fun t => if t = "one" then ["one"] else []⟩

/-- A registered definition matching exactly the text "s" whose handler
returns nil. -/
def mS : stepMatchHandler :=
  ⟨fun _ => HandlerRes.ret none,
   fun t => if t = "s" then ["s"] else []⟩

/-- A registered definition matching exactly the text "two" whose handler
returns the pending sentinel error errPending. -/
def mPend : stepMatchHandler :=
  ⟨fun _ => HandlerRes.ret (some errPending),
   fun t => if t = "two" then ["two"] else []⟩

/-- A registered definition matching exactly the text "x" whose handler
returns a generic non-nil error. -/
def mBoom : stepMatchHandler :=
  ⟨fun _ => HandlerRes.ret (some "boom"),
   fun t => if t = "x" then ["x"] else []⟩

/-- A registered definition matching exactly the text "x" whose handler
panics with a Go error value (recoverable by the e.(error) assertion). -/
def mErrPanic : stepMatchHandler :=
  ⟨fun _ => HandlerRes.panicked (PanicVal.errVal "kaboom"),
   fun t => if t = "x" then ["x"] else []⟩

/-- A registered definition matching the text "num abc" with one capture
group "abc", whose handler calls the typed accessor Arg.Int on the capture:
the accessor panics (with a string message) because "abc" does not parse. -/
def mInt : stepMatchHandler :=
  ⟨fun args =>
    match args with
    | [a] =>
      match a.Int with
      | Except.ok _ => HandlerRes.ret none
      | Except.error v => HandlerRes.panicked v
    | _ => HandlerRes.ret none,
   fun t => if t = "num abc" then ["num abc", "abc"] else []⟩

/-- First of two definitions that both match the text "x" (capture "a1"). -/
def mFirst : stepMatchHandler :=
  ⟨fun _ => HandlerRes.ret none,
   fun t => if t = "x" then ["x", "a1"] else []⟩

/-- Second of two definitions that both match the text "x" (capture "a2"). -/
def mSecond : stepMatchHandler :=
  ⟨fun _ => HandlerRes.ret (some "boom"),
   fun t => if t = "x" then ["x", "a2"] else []⟩

/-- A registry where both "one" and "s" pass. -/
def regBG : List stepMatchHandler := [mOk, mS]

/-- A Feature with a passing one-step Background (step "one") and two
Scenarios "A" and "B", each with the single passing step "s". -/
def featBG : gherkin.Feature :=
  ⟨some ⟨[⟨"one"⟩]⟩, [⟨"A", [⟨"s"⟩]⟩, ⟨"B", [⟨"s"⟩]⟩]⟩

/-! Helper lemmas about the engine. -/

lemma findMatch_none (reg : List stepMatchHandler) (text : String)
    (h : ∀ m ∈ reg, m.expr text = []) : findMatch reg text = none := by
  induction reg with
  | nil => rfl
  | cons hd tl ih =>
    have hhd := h hd (List.mem_cons_self hd tl)
    simp only [findMatch, hhd, List.length_nil, gt_iff_lt, Nat.lt_irrefl, if_false]
    exact ih (fun m hm => h m (List.mem_cons_of_mem hd hm))

lemma runStepsAux_skipAll (reg : List stepMatchHandler) (steps : List gherkin.Step) :
    runStepsAux reg steps true = (steps.map Event.skipped, [], StepsRes.done true) := by
  induction steps with
  | nil => rfl
  | cons st rest ih => simp [runStepsAux, ih]

lemma runStepsAux_append (reg : List stepMatchHandler) (l₁ l₂ : List gherkin.Step)
    (evs : List Event) (invs : List gherkin.Step)
    (h : runStepsAux reg l₁ false = (evs, invs, StepsRes.done false)) :
    runStepsAux reg (l₁ ++ l₂) false =
      (evs ++ (runStepsAux reg l₂ false).1,
       invs ++ (runStepsAux reg l₂ false).2.1,
       (runStepsAux reg l₂ false).2.2) := by
  induction l₁ generalizing evs invs with
  | nil =>
    simp only [runStepsAux, Prod.mk.injEq] at h
    obtain ⟨h1, h2, -⟩ := h
    subst h1; subst h2
    simp
  | cons st rest ih =>
    rcases hr : runStep reg st with ⟨evs2, invs2, r⟩
    rw [List.cons_append]
    simp only [runStepsAux, Bool.false_eq_true, if_false, hr] at h ⊢
    rcases r with e | _
    · rcases e with _ | e0
      · simp only [Option.isSome_none] at h ⊢
        rcases ht : runStepsAux reg rest false with ⟨evs3, invs3, r3⟩
        rw [ht] at h
        simp only [Prod.mk.injEq] at h
        obtain ⟨h1, h2, h3⟩ := h
        subst h1; subst h2
        have := ih evs3 invs3 (by rw [ht, ← h3])
        rw [this]
        simp
      · simp only [Option.isSome_some] at h ⊢
        rw [runStepsAux_skipAll] at h
        simp at h
    · simp at h

lemma runStep_failing (reg : List stepMatchHandler) (st : gherkin.Step)
    (evs : List Event) (invs : List gherkin.Step) (r : StepRes)
    (h : runStep reg st = (evs, invs, r))
    (hf : ∃ ev ∈ evs, isFailing ev = true) :
    ∃ e, r = StepRes.ret (some e) := by
  rcases hm : findMatch reg st.text with _ | ⟨m, args⟩
  · simp only [runStep, hm, Prod.mk.injEq] at h
    exact ⟨errPending, h.2.2.symm⟩
  · rcases hh : m.handler args with e | v
    · rcases e with _ | e0
      · simp only [runStep, hm, hh, Prod.mk.injEq] at h
        obtain ⟨h1, -, -⟩ := h
        subst h1
        simp [isFailing] at hf
      · simp only [runStep, hm, hh, Prod.mk.injEq] at h
        exact ⟨e0, h.2.2.symm⟩
    · rcases v with e0 | s0
      · simp only [runStep, hm, hh, Prod.mk.injEq] at h
        exact ⟨e0, h.2.2.symm⟩
      · simp only [runStep, hm, hh, Prod.mk.injEq] at h
        obtain ⟨h1, -, -⟩ := h
        subst h1
        simp at hf

lemma runScenarios_allSkipped (reg : List stepMatchHandler)
    (bg : Option gherkin.Background) (scs : List gherkin.Scenario) :
    runScenarios reg bg scs true =
      ((scs.map (fun s => Event.node (Node.scenario s.name) :: skipSteps s.steps)).flatten,
       [], FeatRes.done) := by
  induction scs with
  | nil => cases bg <;> rfl
  | cons sc rest ih =>
    cases bg <;>
      simp [runScenarios, scenarioPart, ih]

/-! Claim theorems. -/

/-- Claim C1: for every Scenario, once any step in it yields a Failed,
Pending or Undefined outcome, every subsequent step of that Scenario
receives the Skipped outcome and its handler is never invoked: if the steps
before `st` ran without setting the failed flag and `st` emits a failing
outcome, then every step of `post` is reported Skipped and the invocation
log ends with the steps invoked up to and including `st`. -/
theorem scenario_skips_after_failure (reg : List stepMatchHandler)
    (pre : List gherkin.Step) (st : gherkin.Step) (post : List gherkin.Step)
    (evs1 : List Event) (inv1 : List gherkin.Step)
    (evs2 : List Event) (inv2 : List gherkin.Step) (r : StepRes)
    (hpre : runStepsAux reg pre false = (evs1, inv1, StepsRes.done false))
    (hst : runStep reg st = (evs2, inv2, r))
    (hfail : ∃ ev ∈ evs2, isFailing ev = true) :
    runSteps reg (pre ++ st :: post) =
      (evs1 ++ evs2 ++ post.map Event.skipped, inv1 ++ inv2, StepsRes.done true) := by
  obtain ⟨e, rfl⟩ := runStep_failing reg st evs2 inv2 r hst hfail
  have hsingle : runStepsAux reg (st :: post) false =
      (evs2 ++ post.map Event.skipped, inv2, StepsRes.done true) := by
    simp only [runStepsAux, Bool.false_eq_true, if_false, hst, Option.isSome_some,
      runStepsAux_skipAll]
    simp
  unfold runSteps
  rw [runStepsAux_append reg pre (st :: post) evs1 inv1 hpre, hsingle]
  simp [List.append_assoc]

/-- Witness for C1 at a concrete input: a two-step scenario where the first
step fails; the second step is Skipped and only the first handler ran. -/
theorem scenario_skips_after_failure_witness :
    runSteps [mBoom] [⟨"x"⟩, ⟨"y"⟩] =
      ([Event.failed ⟨"x"⟩ "boom", Event.skipped ⟨"y"⟩], [⟨"x"⟩], StepsRes.done true) := by
  have h := scenario_skips_after_failure [mBoom] [] ⟨"x"⟩ [⟨"y"⟩]
    [] [] [Event.failed ⟨"x"⟩ "boom"] [⟨"x"⟩] (StepRes.ret (some "boom"))
    rfl (by decide) (by decide)
  simpa using h

/-- Claim C2: step resolution scans the registered definitions in
registration order and returns the definition with the lowest registration
index whose pattern matches, with the Arguments bound to the capture groups
of that pattern in order; all definitions registered before it do not match,
so later definitions that would also match are never chosen. -/
theorem first_match_wins (reg : List stepMatchHandler) (text : String)
    (h : ∃ m ∈ reg, (m.expr text).length > 0) :
    ∃ pre m post, reg = pre ++ m :: post
      ∧ (∀ m' ∈ pre, m'.expr text = [])
      ∧ (m.expr text).length > 0
      ∧ findMatch reg text = some (m, ((m.expr text).drop 1).map Arg.mk) := by
  induction reg with
  | nil => simp at h
  | cons hd tl ih =>
    by_cases hhd : (hd.expr text).length > 0
    · exact ⟨[], hd, tl, rfl, by simp, hhd, by simp [findMatch, hhd]⟩
    · have hnil : hd.expr text = [] := List.eq_nil_of_length_eq_zero (by omega)
      have h' : ∃ m ∈ tl, (m.expr text).length > 0 := by
        rcases h with ⟨m, hm, hlen⟩
        rcases List.mem_cons.mp hm with rfl | hmem
        · exact absurd hlen hhd
        · exact ⟨m, hmem, hlen⟩
      obtain ⟨pre, m, post, hre, hpre, hlen, hfind⟩ := ih h'
      refine ⟨hd :: pre, m, post, by rw [hre]; rfl, ?_, hlen, ?_⟩
      · intro m' hm'
        rcases List.mem_cons.mp hm' with rfl | hh
        · exact hnil
        · exact hpre m' hh
      · rw [← hfind]
        simp [findMatch, hnil]

/-- Witness for C2 at a concrete input: two definitions both match "x"; the
first registered one is chosen. -/
theorem first_match_wins_witness :
    ∃ pre m post, [mFirst, mSecond] = pre ++ m :: post
      ∧ (∀ m' ∈ pre, m'.expr "x" = [])
      ∧ (m.expr "x").length > 0
      ∧ findMatch [mFirst, mSecond] "x" = some (m, ((m.expr "x").drop 1).map Arg.mk) :=
  first_match_wins [mFirst, mSecond] "x"
    ⟨mFirst, List.mem_cons_self mFirst [mSecond], by decide⟩

/-- Counterexample to C3: with no registered definitions, the step "two"
matches nothing, yet the event reported for it is Pending (fmt.Pending,
suite.go line 143) and no Undefined event is emitted. -/
theorem unmatched_reported_pending_not_undefined :
    (runStep [] ⟨"two"⟩).1 = [Event.pending ⟨"two"⟩]
    ∧ Event.undefined ⟨"two"⟩ ∉ (runStep [] ⟨"two"⟩).1 := by
  decide

/-- Claim C3 amended: for every step whose text is matched by no registered
pattern, the outcome reported is Pending (not Undefined), the step returns
the errPending error, and the scenario is marked failed (the failed flag of
runSteps is set). -/
theorem unmatched_step_is_pending (reg : List stepMatchHandler) (st : gherkin.Step)
    (h : ∀ m ∈ reg, m.expr st.text = []) :
    runStep reg st = ([Event.pending st], [], StepRes.ret (some errPending))
    ∧ runSteps reg [st] = ([Event.pending st], [], StepsRes.done true) := by
  have hfm := findMatch_none reg st.text h
  constructor
  · simp [runStep, hfm]
  · simp [runSteps, runStepsAux, runStep, hfm]

/-- Witness for the amended C3 at a concrete input: the empty registry and
the step "two". -/
theorem unmatched_step_is_pending_witness :
    runStep [] (⟨"two"⟩ : gherkin.Step)
        = ([Event.pending ⟨"two"⟩], [], StepRes.ret (some errPending))
    ∧ runSteps [] [(⟨"two"⟩ : gherkin.Step)]
        = ([Event.pending ⟨"two"⟩], [], StepsRes.done true) :=
  unmatched_step_is_pending [] ⟨"two"⟩ (by simp)

/-- Counterexample to C4: a handler returning the pending sentinel error
errPending is reported Failed (suite.go line 155 treats every non-nil error
alike), not Pending. -/
theorem pending_sentinel_reported_failed :
    (runStep [mPend] ⟨"two"⟩).1 = [Event.failed ⟨"two"⟩ errPending]
    ∧ Event.pending ⟨"two"⟩ ∉ (runStep [mPend] ⟨"two"⟩).1 := by
  decide

/-- Claim C4 amended: for every step matched to a handler, the reported
outcome is Passed when the handler returns nil and Failed when it returns
any non-nil error — including the pending sentinel errPending, which is not
treated specially. -/
theorem matched_step_outcome (reg : List stepMatchHandler) (st : gherkin.Step)
    (m : stepMatchHandler) (args : List Arg)
    (hm : findMatch reg st.text = some (m, args)) :
    (m.handler args = HandlerRes.ret none →
      runStep reg st = ([Event.passed st], [st], StepRes.ret none))
    ∧ ∀ e, m.handler args = HandlerRes.ret (some e) →
      runStep reg st = ([Event.failed st e], [st], StepRes.ret (some e)) := by
  constructor
  · intro hh
    simp [runStep, hm, hh]
  · intro e hh
    simp [runStep, hm, hh]

/-- Witness for the amended C4 at a concrete input: the handler returns the
sentinel errPending and the step is reported Failed. -/
theorem matched_step_outcome_witness :
    runStep [mPend] (⟨"two"⟩ : gherkin.Step)
      = ([Event.failed ⟨"two"⟩ errPending], [⟨"two"⟩], StepRes.ret (some errPending)) :=
  (matched_step_outcome [mPend] ⟨"two"⟩ mPend [] rfl).2 errPending (by decide)

/-- Claim C5, evaluated at the failing input (the claim is right, the code is
wrong): the handler of mInt calls the typed accessor Arg.Int on the capture
"abc", which panics with a STRING value; the deferred recovery of runStep
performs the type assertion err = e.(error) on it, which fails and
re-panics, so the run crashes and no Failed event is emitted for the step.
By contrast a panic carrying a Go error value is recovered into a Failed
outcome as the claim describes. -/
theorem conversion_panic_crashes_run :
    runStep [mInt] (⟨"num abc"⟩ : gherkin.Step) = ([], [⟨"num abc"⟩], StepRes.crash)
    ∧ runStep [mErrPanic] (⟨"x"⟩ : gherkin.Step)
        = ([Event.failed ⟨"x"⟩ "kaboom"], [⟨"x"⟩], StepRes.ret (some "kaboom")) := by
  constructor
  · decide
  · decide

/-- Claim C6: once the Background yields a failing result, the feature-level
failure flag stays set for the remainder of the Feature: the Background is
not re-run (no further background node or step events appear) and every step
of every later Scenario is reported Skipped while no further handler is
invoked (the invocation log is exactly that of the Background). -/
theorem background_failure_skips_feature (reg : List stepMatchHandler)
    (b : gherkin.Background) (sc : gherkin.Scenario) (rest : List gherkin.Scenario)
    (evsB : List Event) (invB : List gherkin.Step)
    (hbg : runSteps reg b.steps = (evsB, invB, StepsRes.done true)) :
    runScenarios reg (some b) (sc :: rest) false =
      (Event.node Node.background :: (evsB ++
        ((sc :: rest).map (fun s => Event.node (Node.scenario s.name) :: skipSteps s.steps)).flatten),
       invB, FeatRes.done) := by
  simp only [runScenarios, hbg, scenarioPart, if_true, runScenarios_allSkipped]
  simp

/-- Witness for C6 at a concrete input: a failing one-step Background and
one Scenario whose only step is Skipped with no handler invoked. -/
theorem background_failure_skips_feature_witness :
    runScenarios [mBoom] (some ⟨[⟨"x"⟩]⟩) [⟨"A", [⟨"s"⟩]⟩] false =
      ([Event.node Node.background, Event.failed ⟨"x"⟩ "boom",
        Event.node (Node.scenario "A"), Event.skipped ⟨"s"⟩],
       [⟨"x"⟩], FeatRes.done) := by
  have h := background_failure_skips_feature [mBoom] ⟨[⟨"x"⟩]⟩ ⟨"A", [⟨"s"⟩]⟩ []
    [Event.failed ⟨"x"⟩ "boom"] [⟨"x"⟩] (by decide)
  simpa using h

/-- Claim C7, evaluated at the failing input (the claim is right, the code is
wrong, as the TODO comment at suite.go line 187 itself admits): in a Feature
with a passing one-step Background and two Scenarios, the Passed event for
the Background step "one" is emitted twice in one run of the Feature, once
before each Scenario, not exactly once. -/
theorem background_step_reported_twice :
    ((runFeature regBG featBG).1.filter
        (fun ev => ev = Event.passed ⟨"one"⟩)).length = 2
    ∧ (runFeature regBG featBG).1 =
        [Event.node Node.feature,
         Event.node Node.background, Event.passed ⟨"one"⟩,
         Event.node (Node.scenario "A"), Event.passed ⟨"s"⟩,
         Event.node Node.background, Event.passed ⟨"one"⟩,
         Event.node (Node.scenario "B"), Event.passed ⟨"s"⟩] := by
  constructor
  · decide
  · decide

/-- Claim C10: a failing result of the own steps of a Scenario is discarded by
runFeature (suite.go line 198), so it never sets the feature-level failure
flag: when the Background ran without failure and the steps of the Scenario
complete with the failed flag set, the rest of the Feature runs exactly as
`runScenarios reg (some b) rest false` — as if no earlier Scenario had
failed, with the Background re-run before each later Scenario and their own
steps executed. -/
theorem scenario_failure_discarded (reg : List stepMatchHandler)
    (b : gherkin.Background) (sc : gherkin.Scenario) (rest : List gherkin.Scenario)
    (evsB : List Event) (invB : List gherkin.Step)
    (evsS : List Event) (invS : List gherkin.Step)
    (hbg : runSteps reg b.steps = (evsB, invB, StepsRes.done false))
    (hsc : runSteps reg sc.steps = (evsS, invS, StepsRes.done true)) :
    runScenarios reg (some b) (sc :: rest) false =
      (Event.node Node.background :: (evsB ++
         (Event.node (Node.scenario sc.name) :: (evsS ++ (runScenarios reg (some b) rest false).1))),
       invB ++ (invS ++ (runScenarios reg (some b) rest false).2.1),
       (runScenarios reg (some b) rest false).2.2) := by
  simp only [runScenarios, hbg, scenarioPart, Bool.false_eq_true, if_false, hsc]

/-- Witness for C10 at a concrete input: Scenario "A" fails on step "x", yet
the Background is re-run before Scenario "B" and the step of "B" is executed
and Passed, its handler invoked. -/
theorem scenario_failure_discarded_witness :
    runScenarios [mOk, mBoom] (some ⟨[⟨"one"⟩]⟩)
        [⟨"A", [⟨"x"⟩]⟩, ⟨"B", [⟨"one"⟩]⟩] false =
      ([Event.node Node.background, Event.passed ⟨"one"⟩,
        Event.node (Node.scenario "A"), Event.failed ⟨"x"⟩ "boom",
        Event.node Node.background, Event.passed ⟨"one"⟩,
        Event.node (Node.scenario "B"), Event.passed ⟨"one"⟩],
       [⟨"one"⟩, ⟨"x"⟩, ⟨"one"⟩, ⟨"one"⟩], FeatRes.done) := by
  have h := scenario_failure_discarded [mOk, mBoom] ⟨[⟨"one"⟩]⟩
    ⟨"A", [⟨"x"⟩]⟩ [⟨"B", [⟨"one"⟩]⟩]
    [Event.passed ⟨"one"⟩] [⟨"one"⟩]
    [Event.failed ⟨"x"⟩ "boom"] [⟨"x"⟩] (by decide) (by decide)
  rw [h]
  decide

/-- Claim C8: the run is successful exactly when failed == 0 and, in strict
mode, additionally pending == 0 and undefined == 0; and with failed == 0,
turning strict mode on flips success to failure if and only if the pending
or undefined count is nonzero. -/
theorem strict_mode_success (c : Counts) (strict : Bool) :
    (runSuccess c strict = true ↔
      (c.failed = 0 ∧ (strict = true → c.pending = 0 ∧ c.undefined = 0)))
    ∧ (c.failed = 0 →
        ((runSuccess c false = true ∧ runSuccess c true = false) ↔
          (c.pending ≠ 0 ∨ c.undefined ≠ 0))) := by
  cases strict <;>
    simp [runSuccess] <;>
    tauto

/-- Witness for C8 at a concrete input: two passed steps and one pending
step; the non-strict run succeeds and the strict run fails. -/
theorem strict_mode_success_witness :
    runSuccess ⟨2, 0, 1, 0, 0⟩ false = true ∧ runSuccess ⟨2, 0, 1, 0, 0⟩ true = false :=
  ((strict_mode_success ⟨2, 0, 1, 0, 0⟩ true).2 rfl).mpr (Or.inl (by decide))

/-- Claim C9: for every registry and Feature list, any partition of the
Features across workers (a schedule whose concatenation is a permutation of
the Feature list) produces the same aggregate total for every Outcome kind
as the sequential worker-count-1 run. -/
theorem concurrency_invariant_totals (reg : List stepMatchHandler)
    (fs : List gherkin.Feature) (assign : List (List gherkin.Feature))
    (h : assign.flatten.Perm fs) (k : OutcomeKind) :
    concurrentTotal reg assign k = sequentialTotal reg fs k := by
  have hmap : (assign.flatten.map (fun f => countFeature reg f k)).Perm
      (fs.map (fun f => countFeature reg f k)) := h.map _
  calc concurrentTotal reg assign k
      = ((assign.map (fun ws => ws.map (fun f => countFeature reg f k))).map List.sum).sum := by
        simp only [concurrentTotal, sequentialTotal, List.map_map]
        rfl
    _ = (assign.flatten.map (fun f => countFeature reg f k)).sum := by
        rw [← List.sum_flatten, List.map_flatten]
    _ = (fs.map (fun f => countFeature reg f k)).sum := hmap.sum_eq
    _ = sequentialTotal reg fs k := rfl

/-- Witness for C9 at a concrete input: two Features scheduled on two
workers in swapped order give the same passed total as the sequential run. -/
theorem concurrency_invariant_totals_witness :
    concurrentTotal [] [[⟨none, [⟨"B", []⟩]⟩], [⟨none, []⟩]] OutcomeKind.passed
      = sequentialTotal [] [⟨none, []⟩, ⟨none, [⟨"B", []⟩]⟩] OutcomeKind.passed :=
  concurrency_invariant_totals [] [⟨none, []⟩, ⟨none, [⟨"B", []⟩]⟩]
    [[⟨none, [⟨"B", []⟩]⟩], [⟨none, []⟩]] (by decide) OutcomeKind.passed
